import Mathlib

/-!
Shallow embedding of `witchcraft-metrics/src/meter.rs`: the `Meter` rate
tracker and its `Ewma` decay calculator.

Modelling conventions:
* `f64` values are modelled as real numbers; `i64` as `ℤ`; `u64` as `ℕ`.
* An `Instant` is a rational number of seconds; the `Clock` capability is
  modelled by passing the current instant `now : ℚ` explicitly to each
  operation that calls `clock.now()` in the source.
* `Duration::as_secs` truncates a non-negative duration to whole seconds,
  modelled by `Nat.floor` on `ℚ`; `as_secs_f64` is the exact difference.
* The single `f64` division in `mean_rate` is modelled by `fdiv`, which
  returns `none` exactly when the divisor is zero — the IEEE non-finite
  outcome of dividing a nonzero numerator by `0.0`.
* Concurrency is modelled sequentially: on the path where the
  compare-and-swap on `last_tick` is reached it succeeds, because the
  value it compares against was read on the same path with no interleaving.
  Mutating operations return the updated `Meter`; accessors return a pair
  of the value read and the (possibly ticked) `Meter`.
-/

namespace Witchcraft

/-- `INTERVAL_SECS` from meter.rs (`const INTERVAL_SECS: u64 = 5`). -/
def INTERVAL_SECS : ℕ := 5

/-- `SECONDS_PER_MINUTE` from meter.rs (`const SECONDS_PER_MINUTE: f64 = 60.`). -/
def SECONDS_PER_MINUTE : ℝ := 60

/-- Largest `u64` value accepted by `i32::try_from`: `i32::MAX = 2^31 - 1`. -/
def I32_MAX : ℕ := 2147483647

/-- The `Ewma` struct from meter.rs. -/
structure Ewma where
  rate : ℝ
  alpha : ℝ
  initialized : Bool

/-- `Ewma::new(minutes)` from meter.rs:
`alpha = 1 - (-(INTERVAL_SECS as f64) / SECONDS_PER_MINUTE / minutes).exp()`. -/
noncomputable def Ewma.new (minutes : ℝ) : Ewma where
  rate := 0
  alpha := 1 - Real.exp (-(INTERVAL_SECS : ℝ) / SECONDS_PER_MINUTE / minutes)
  initialized := false

/-- `Ewma::tick(count)` from meter.rs. -/
noncomputable def Ewma.tick (e : Ewma) (count : ℤ) : Ewma :=
  let instant_rate : ℝ := (count : ℝ) / (INTERVAL_SECS : ℝ)
  if e.initialized then
    { e with rate := e.rate + e.alpha * (instant_rate - e.rate) }
  else
    { e with rate := instant_rate, initialized := true }

/-- `Ewma::decay(ticks)` from meter.rs: `i32::try_from(ticks)` on a `u64`
fails exactly when `ticks > i32::MAX`; on success `rate *= (1 - alpha).powi(ticks)`,
on failure `rate = 0`. -/
noncomputable def Ewma.decay (e : Ewma) (ticks : ℕ) : Ewma :=
  if ticks ≤ I32_MAX then
    { e with rate := e.rate * (1 - e.alpha) ^ ticks }
  else
    { e with rate := 0 }

/-- `Ewma::get()` from meter.rs. -/
def Ewma.get (e : Ewma) : ℝ := e.rate

/-- The `State` struct from meter.rs (the mutex-protected aggregate). -/
structure State where
  count : ℤ
  rate_10s : Ewma
  rate_30s : Ewma
  rate_1m : Ewma
  rate_5m : Ewma
  rate_15m : Ewma

/-- The `Meter` struct from meter.rs.  The `clock` field is modelled by
passing `now` to each operation; the atomics and the mutex collapse to
plain fields in this sequential model. -/
structure Meter where
  uncounted : ℤ
  last_tick : ℕ
  start_time : ℚ
  state : State

/-- `Meter::new_with(clock)` from meter.rs, with `start_time = clock.now()`
passed in directly. -/
noncomputable def Meter.new_with (start_time : ℚ) : Meter where
  uncounted := 0
  last_tick := 0
  start_time := start_time
  state :=
    { count := 0
      rate_10s := Ewma.new 0.16
      rate_30s := Ewma.new 0.5
      rate_1m := Ewma.new 1
      rate_5m := Ewma.new 5
      rate_15m := Ewma.new 15 }

/-- `Meter::tick_if_necessary` from meter.rs, sequentially: the
compare-and-swap succeeds whenever it is reached (the compared value was
read on this same path).  `(time - self.start_time).as_secs()` is
`Nat.floor` of the rational difference. -/
noncomputable def Meter.tick_if_necessary (m : Meter) (now : ℚ) : Meter :=
  let new_tick : ℕ := ⌊now - m.start_time⌋₊
  let old_tick := m.last_tick
  let age := new_tick - old_tick
  if age < INTERVAL_SECS then m
  else
    let new_interval_start_tick := new_tick - age % INTERVAL_SECS
    let required_ticks := age / INTERVAL_SECS
    let uncounted := m.uncounted
    { m with
      last_tick := new_interval_start_tick
      uncounted := 0
      state :=
        { count := m.state.count + uncounted
          rate_10s := (m.state.rate_10s.tick uncounted).decay (required_ticks - 1)
          rate_30s := (m.state.rate_30s.tick uncounted).decay (required_ticks - 1)
          rate_1m := (m.state.rate_1m.tick uncounted).decay (required_ticks - 1)
          rate_5m := (m.state.rate_5m.tick uncounted).decay (required_ticks - 1)
          rate_15m := (m.state.rate_15m.tick uncounted).decay (required_ticks - 1) } }

/-- `Meter::mark(n)` from meter.rs. -/
noncomputable def Meter.mark (m : Meter) (n : ℤ) (now : ℚ) : Meter :=
  let m' := m.tick_if_necessary now
  { m' with uncounted := m'.uncounted + n }

/-- `Meter::count()` from meter.rs: `self.state.lock().count + self.uncounted`.
No tick. -/
def Meter.count (m : Meter) : ℤ := m.state.count + m.uncounted

/-- `Meter::ten_second_rate()` from meter.rs: tick, then read under the lock. -/
noncomputable def Meter.ten_second_rate (m : Meter) (now : ℚ) : ℝ × Meter :=
  let m' := m.tick_if_necessary now
  (m'.state.rate_10s.get, m')

/-- `Meter::thirty_second_rate()` from meter.rs. -/
noncomputable def Meter.thirty_second_rate (m : Meter) (now : ℚ) : ℝ × Meter :=
  let m' := m.tick_if_necessary now
  (m'.state.rate_30s.get, m')

/-- `Meter::one_minute_rate()` from meter.rs. -/
noncomputable def Meter.one_minute_rate (m : Meter) (now : ℚ) : ℝ × Meter :=
  let m' := m.tick_if_necessary now
  (m'.state.rate_1m.get, m')

/-- `Meter::five_minute_rate()` from meter.rs. -/
noncomputable def Meter.five_minute_rate (m : Meter) (now : ℚ) : ℝ × Meter :=
  let m' := m.tick_if_necessary now
  (m'.state.rate_5m.get, m')

/-- `Meter::fifteen_minute_rate()` from meter.rs. -/
noncomputable def Meter.fifteen_minute_rate (m : Meter) (now : ℚ) : ℝ × Meter :=
  let m' := m.tick_if_necessary now
  (m'.state.rate_15m.get, m')

/-- IEEE `f64` division restricted to the finite outcomes: `none` models the
non-finite (infinite) result of dividing a nonzero numerator by `0.0`. -/
def fdiv (a b : ℚ) : Option ℚ :=
  if b = 0 then none else some (a / b)

/-- `Meter::mean_rate()` from meter.rs.  Note the source does NOT call
`tick_if_necessary` here; it reads `self.count()` (which is tick-free) and
divides by the exact elapsed seconds.  The `count == 0.` comparison is on
the `i64` count cast to `f64`, which is zero exactly when the integer is
zero.  The meter is returned unchanged — `mean_rate` performs no mutation. -/
def Meter.mean_rate (m : Meter) (now : ℚ) : Option ℚ × Meter :=
  let count := m.count
  if count = 0 then (some 0, m)
  else (fdiv (count : ℚ) (now - m.start_time), m)

/-- One public operation on a meter, with the instant at which it is called
(the operations that call `clock.now()` carry it). -/
inductive MeterOp where
  | mark (n : ℤ) (t : ℚ)
  | rate10 (t : ℚ)
  | rate30 (t : ℚ)
  | rate1m (t : ℚ)
  | rate5m (t : ℚ)
  | rate15m (t : ℚ)
  | meanR (t : ℚ)
  | countR

/-- The meter state after one public operation. -/
noncomputable def applyOp (m : Meter) : MeterOp → Meter
  | .mark n t => m.mark n t
  | .rate10 t => (m.ten_second_rate t).2
  | .rate30 t => (m.thirty_second_rate t).2
  | .rate1m t => (m.one_minute_rate t).2
  | .rate5m t => (m.five_minute_rate t).2
  | .rate15m t => (m.fifteen_minute_rate t).2
  | .meanR t => (m.mean_rate t).2
  | .countR => m

/-- The meter state after a sequence of public operations. -/
noncomputable def runOps (m : Meter) (ops : List MeterOp) : Meter :=
  ops.foldl applyOp m

/-- The sum of all values marked in a sequence of operations. -/
def marksSum : List MeterOp → ℤ
  | [] => 0
  | .mark n _ :: rest => n + marksSum rest
  | .rate10 _ :: rest => marksSum rest
  | .rate30 _ :: rest => marksSum rest
  | .rate1m _ :: rest => marksSum rest
  | .rate5m _ :: rest => marksSum rest
  | .rate15m _ :: rest => marksSum rest
  | .meanR _ :: rest => marksSum rest
  | .countR :: rest => marksSum rest

/-- The per-instance invariant maintained by the program: `rate` is only ever
assigned in `tick` (which sets `initialized`) and `decay` (which multiplies),
so an uninitialized instance still carries its construction value `0`. -/
def EwmaInv (e : Ewma) : Prop := e.initialized = false → e.rate = 0

lemma Ewma.tick_alpha (e : Ewma) (c : ℤ) : (e.tick c).alpha = e.alpha := by
  unfold Ewma.tick
  split <;> rfl

lemma Ewma.tick_initialized_eq (e : Ewma) (c : ℤ) : (e.tick c).initialized = true := by
  unfold Ewma.tick
  split <;> simp_all

lemma Ewma.tick_zero_rate (e : Ewma) (h : EwmaInv e) :
    (e.tick 0).rate = e.rate * (1 - e.alpha) := by
  unfold Ewma.tick
  split
  · simp only
    ring
  · rename_i hinit
    have h0 : e.rate = 0 := h (by simpa using hinit)
    simp [h0]

lemma Ewma.iterate_tick_zero (k : ℕ) (e : Ewma) (h : EwmaInv e) :
    ((fun x => Ewma.tick x 0)^[k] e).rate = e.rate * (1 - e.alpha) ^ k := by
  induction k generalizing e with
  | zero => simp
  | succ k ih =>
    rw [Function.iterate_succ_apply]
    have hinv : EwmaInv (e.tick 0) := by
      intro hfalse
      rw [Ewma.tick_initialized_eq] at hfalse
      cases hfalse
    rw [ih (e.tick 0) hinv, Ewma.tick_alpha, Ewma.tick_zero_rate e h, pow_succ]
    ring

lemma Ewma.decay_rate_of_le (e : Ewma) (k : ℕ) (hk : k ≤ I32_MAX) :
    (e.decay k).rate = e.rate * (1 - e.alpha) ^ k := by
  unfold Ewma.decay
  rw [if_pos hk]

lemma Ewma.tick_zero_decay_rate (e : Ewma) (k : ℕ) (h : EwmaInv e)
    (h1 : 1 ≤ k) (hk : k - 1 ≤ I32_MAX) :
    (((e.tick 0).decay (k - 1)).rate) = e.rate * (1 - e.alpha) ^ k := by
  rw [Ewma.decay_rate_of_le _ _ hk, Ewma.tick_alpha, Ewma.tick_zero_rate e h]
  have hpow : (1 - e.alpha) ^ k = (1 - e.alpha) * (1 - e.alpha) ^ (k - 1) := by
    conv_lhs => rw [show k = 1 + (k - 1) from (Nat.add_sub_cancel' h1).symm]
    rw [pow_add, pow_one]
  rw [hpow]
  ring

lemma Meter.tick_if_necessary_of_lt (m : Meter) (now : ℚ)
    (h : ⌊now - m.start_time⌋₊ - m.last_tick < INTERVAL_SECS) :
    m.tick_if_necessary now = m := by
  simp only [Meter.tick_if_necessary]
  rw [if_pos h]

lemma Meter.tick_if_necessary_of_ge (m : Meter) (now : ℚ)
    (h : ¬ ⌊now - m.start_time⌋₊ - m.last_tick < INTERVAL_SECS) :
    m.tick_if_necessary now =
      { m with
        last_tick :=
          ⌊now - m.start_time⌋₊ - (⌊now - m.start_time⌋₊ - m.last_tick) % INTERVAL_SECS
        uncounted := 0
        state :=
          { count := m.state.count + m.uncounted
            rate_10s := (m.state.rate_10s.tick m.uncounted).decay
              ((⌊now - m.start_time⌋₊ - m.last_tick) / INTERVAL_SECS - 1)
            rate_30s := (m.state.rate_30s.tick m.uncounted).decay
              ((⌊now - m.start_time⌋₊ - m.last_tick) / INTERVAL_SECS - 1)
            rate_1m := (m.state.rate_1m.tick m.uncounted).decay
              ((⌊now - m.start_time⌋₊ - m.last_tick) / INTERVAL_SECS - 1)
            rate_5m := (m.state.rate_5m.tick m.uncounted).decay
              ((⌊now - m.start_time⌋₊ - m.last_tick) / INTERVAL_SECS - 1)
            rate_15m := (m.state.rate_15m.tick m.uncounted).decay
              ((⌊now - m.start_time⌋₊ - m.last_tick) / INTERVAL_SECS - 1) } } := by
  simp only [Meter.tick_if_necessary]
  rw [if_neg h]

lemma Meter.count_tick_if_necessary (m : Meter) (now : ℚ) :
    (m.tick_if_necessary now).count = m.count := by
  by_cases h : ⌊now - m.start_time⌋₊ - m.last_tick < INTERVAL_SECS
  · rw [Meter.tick_if_necessary_of_lt m now h]
  · rw [Meter.tick_if_necessary_of_ge m now h]
    simp [Meter.count]

lemma Meter.count_mark (m : Meter) (n : ℤ) (now : ℚ) :
    (m.mark n now).count = m.count + n := by
  have h := Meter.count_tick_if_necessary m now
  simp only [Meter.mark, Meter.count] at *
  omega

lemma Meter.count_applyOp (m : Meter) (op : MeterOp) :
    (applyOp m op).count = m.count + marksSum [op] := by
  cases op with
  | mark n t => simp [applyOp, marksSum, Meter.count_mark]
  | rate10 t =>
    simp [applyOp, marksSum, Meter.ten_second_rate, Meter.count_tick_if_necessary]
  | rate30 t =>
    simp [applyOp, marksSum, Meter.thirty_second_rate, Meter.count_tick_if_necessary]
  | rate1m t =>
    simp [applyOp, marksSum, Meter.one_minute_rate, Meter.count_tick_if_necessary]
  | rate5m t =>
    simp [applyOp, marksSum, Meter.five_minute_rate, Meter.count_tick_if_necessary]
  | rate15m t =>
    simp [applyOp, marksSum, Meter.fifteen_minute_rate, Meter.count_tick_if_necessary]
  | meanR t =>
    simp only [applyOp, marksSum, Meter.mean_rate]
    split <;> simp
  | countR => simp [applyOp, marksSum]

lemma Meter.last_tick_tick_if_necessary (m : Meter) (now : ℚ) :
    ∃ j : ℕ, (m.tick_if_necessary now).last_tick = m.last_tick + INTERVAL_SECS * j := by
  by_cases h : ⌊now - m.start_time⌋₊ - m.last_tick < INTERVAL_SECS
  · exact ⟨0, by rw [Meter.tick_if_necessary_of_lt m now h]; simp⟩
  · refine ⟨(⌊now - m.start_time⌋₊ - m.last_tick) / INTERVAL_SECS, ?_⟩
    rw [Meter.tick_if_necessary_of_ge m now h]
    have hdm := Nat.div_add_mod (⌊now - m.start_time⌋₊ - m.last_tick) INTERVAL_SECS
    simp only [INTERVAL_SECS] at *
    omega

lemma Meter.last_tick_applyOp (m : Meter) (op : MeterOp) :
    ∃ j : ℕ, (applyOp m op).last_tick = m.last_tick + INTERVAL_SECS * j := by
  cases op with
  | mark n t =>
    obtain ⟨j, hj⟩ := Meter.last_tick_tick_if_necessary m t
    exact ⟨j, by simp [applyOp, Meter.mark, hj]⟩
  | rate10 t =>
    simpa [applyOp, Meter.ten_second_rate] using Meter.last_tick_tick_if_necessary m t
  | rate30 t =>
    simpa [applyOp, Meter.thirty_second_rate] using Meter.last_tick_tick_if_necessary m t
  | rate1m t =>
    simpa [applyOp, Meter.one_minute_rate] using Meter.last_tick_tick_if_necessary m t
  | rate5m t =>
    simpa [applyOp, Meter.five_minute_rate] using Meter.last_tick_tick_if_necessary m t
  | rate15m t =>
    simpa [applyOp, Meter.fifteen_minute_rate] using Meter.last_tick_tick_if_necessary m t
  | meanR t =>
    refine ⟨0, ?_⟩
    simp only [applyOp, Meter.mean_rate]
    split <;> simp
  | countR => exact ⟨0, by simp [applyOp]⟩

lemma marksSum_cons (op : MeterOp) (rest : List MeterOp) :
    marksSum (op :: rest) = marksSum [op] + marksSum rest := by
  cases op <;> simp [marksSum]

lemma Meter.count_runOps (m : Meter) (ops : List MeterOp) :
    (runOps m ops).count = m.count + marksSum ops := by
  induction ops generalizing m with
  | nil => simp [runOps, marksSum]
  | cons op rest ih =>
    have h1 : runOps m (op :: rest) = runOps (applyOp m op) rest := rfl
    rw [h1, ih (applyOp m op), Meter.count_applyOp, marksSum_cons op rest]
    ring

/-- C1: on a successful tick (the elapsed age is at least one interval, so on
this sequential path the compare-and-swap on `last_tick` succeeds), with
`required_ticks = age / interval` (integer division), `tick_if_necessary`
swaps `uncounted` to zero capturing its prior value as the delta, adds the
delta to `count`, and applies to each of the five Ewma instances
`tick(delta)` exactly once followed by `decay(required_ticks - 1)`. -/
theorem tick_success_applies_delta_then_decay (m : Meter) (now : ℚ)
    (h : INTERVAL_SECS ≤ ⌊now - m.start_time⌋₊ - m.last_tick) :
    (m.tick_if_necessary now).uncounted = 0 ∧
    (m.tick_if_necessary now).state.count = m.state.count + m.uncounted ∧
    (m.tick_if_necessary now).state.rate_10s =
      (m.state.rate_10s.tick m.uncounted).decay
        ((⌊now - m.start_time⌋₊ - m.last_tick) / INTERVAL_SECS - 1) ∧
    (m.tick_if_necessary now).state.rate_30s =
      (m.state.rate_30s.tick m.uncounted).decay
        ((⌊now - m.start_time⌋₊ - m.last_tick) / INTERVAL_SECS - 1) ∧
    (m.tick_if_necessary now).state.rate_1m =
      (m.state.rate_1m.tick m.uncounted).decay
        ((⌊now - m.start_time⌋₊ - m.last_tick) / INTERVAL_SECS - 1) ∧
    (m.tick_if_necessary now).state.rate_5m =
      (m.state.rate_5m.tick m.uncounted).decay
        ((⌊now - m.start_time⌋₊ - m.last_tick) / INTERVAL_SECS - 1) ∧
    (m.tick_if_necessary now).state.rate_15m =
      (m.state.rate_15m.tick m.uncounted).decay
        ((⌊now - m.start_time⌋₊ - m.last_tick) / INTERVAL_SECS - 1) := by
  rw [Meter.tick_if_necessary_of_ge m now (not_lt.2 h)]
  exact ⟨rfl, rfl, rfl, rfl, rfl, rfl, rfl⟩

/-- Witness for C1 at a fresh meter read 12 seconds after construction. -/
theorem tick_success_applies_delta_then_decay_witness :
    INTERVAL_SECS ≤ ⌊(12:ℚ) - (Meter.new_with 0).start_time⌋₊ - (Meter.new_with 0).last_tick ∧
    ((Meter.new_with 0).tick_if_necessary 12).uncounted = 0 := by
  have h : INTERVAL_SECS ≤
      ⌊(12:ℚ) - (Meter.new_with 0).start_time⌋₊ - (Meter.new_with 0).last_tick := by
    norm_num [Meter.new_with, INTERVAL_SECS]
  exact ⟨h, (tick_success_applies_delta_then_decay (Meter.new_with 0) 12 h).1⟩

/-- C2: over any finite sequence of `mark` and accessor calls, with the clock
advanced arbitrarily between calls, the net count (aggregate `count` plus
`uncounted`, which is what `count()` returns) always equals the sum of all
marked values: ticks fold `uncounted` into the aggregate without
double-counting or loss. -/
theorem count_equals_sum_of_marks (s : ℚ) (ops : List MeterOp) :
    (runOps (Meter.new_with s) ops).count = marksSum ops := by
  rw [Meter.count_runOps]
  simp [Meter.count, Meter.new_with]

/-- C7: `last_tick` never decreases across any sequence of operations — after
any run it equals its old value plus a multiple of the 5-second interval —
and a successful tick sets it from `old_tick` to
`old_tick + (age / interval) * interval`, a positive multiple of the
interval. -/
theorem last_tick_monotone_interval_multiples :
    (∀ (m : Meter) (ops : List MeterOp),
      ∃ j : ℕ, (runOps m ops).last_tick = m.last_tick + INTERVAL_SECS * j) ∧
    (∀ (m : Meter) (now : ℚ),
      INTERVAL_SECS ≤ ⌊now - m.start_time⌋₊ - m.last_tick →
      (m.tick_if_necessary now).last_tick =
        m.last_tick +
          INTERVAL_SECS * ((⌊now - m.start_time⌋₊ - m.last_tick) / INTERVAL_SECS)) := by
  constructor
  · intro m ops
    induction ops generalizing m with
    | nil => exact ⟨0, by simp [runOps]⟩
    | cons op rest ih =>
      obtain ⟨j1, hj1⟩ := Meter.last_tick_applyOp m op
      obtain ⟨j2, hj2⟩ := ih (applyOp m op)
      refine ⟨j1 + j2, ?_⟩
      have h1 : runOps m (op :: rest) = runOps (applyOp m op) rest := rfl
      rw [h1, hj2, hj1]
      ring
  · intro m now h
    rw [Meter.tick_if_necessary_of_ge m now (not_lt.2 h)]
    have hdm := Nat.div_add_mod (⌊now - m.start_time⌋₊ - m.last_tick) INTERVAL_SECS
    simp only [INTERVAL_SECS] at *
    omega

/-- Witness for C7's successful-tick clause at a fresh meter read at 12 s:
`last_tick` moves from 0 to `0 + 5 * (12 / 5) = 10`. -/
theorem last_tick_monotone_interval_multiples_witness :
    INTERVAL_SECS ≤ ⌊(12:ℚ) - (Meter.new_with 0).start_time⌋₊ - (Meter.new_with 0).last_tick ∧
    ((Meter.new_with 0).tick_if_necessary 12).last_tick =
      (Meter.new_with 0).last_tick +
        INTERVAL_SECS *
          ((⌊(12:ℚ) - (Meter.new_with 0).start_time⌋₊ - (Meter.new_with 0).last_tick) /
            INTERVAL_SECS) := by
  have h : INTERVAL_SECS ≤
      ⌊(12:ℚ) - (Meter.new_with 0).start_time⌋₊ - (Meter.new_with 0).last_tick := by
    norm_num [Meter.new_with, INTERVAL_SECS]
  exact ⟨h, last_tick_monotone_interval_multiples.2 (Meter.new_with 0) 12 h⟩

/-- A sample initialized Ewma instance, used to evaluate theorems at a
concrete input. -/
noncomputable def ewmaSample : Ewma where
  rate := 2
  alpha := 1 / 4
  initialized := true

/-- C3: for an Ewma instance satisfying the program's invariant (an
uninitialized instance still carries rate 0) and any tick count in the
`i32`-representable range, `decay(k)` produces exactly the same rate as
calling `tick(0)` `k` times; both equal the closed form `rate * (1-alpha)^k`.
Beyond that range `decay` saturates to 0 (claim C8), below any positive
`f64` of the true value. -/
theorem decay_equals_iterated_tick_zero (e : Ewma) (k : ℕ)
    (hinv : EwmaInv e) (hk : k ≤ I32_MAX) :
    (e.decay k).rate = ((fun x => Ewma.tick x 0)^[k] e).rate := by
  rw [Ewma.decay_rate_of_le e k hk, Ewma.iterate_tick_zero k e hinv]

/-- Witness for C3 at a concrete initialized instance and k = 3. -/
theorem decay_equals_iterated_tick_zero_witness :
    EwmaInv ewmaSample ∧ (3:ℕ) ≤ I32_MAX ∧
    (ewmaSample.decay 3).rate = ((fun x => Ewma.tick x 0)^[3] ewmaSample).rate := by
  have h1 : EwmaInv ewmaSample := by
    intro h
    simp [ewmaSample] at h
  have h2 : (3:ℕ) ≤ I32_MAX := by norm_num [I32_MAX]
  exact ⟨h1, h2, decay_equals_iterated_tick_zero ewmaSample 3 h1 h2⟩

/-- C4: if the clock has advanced by exactly `k ≥ 1` whole 5-second intervals
since the last tick and nothing was marked (`uncounted = 0`), the next
`tick_if_necessary` applies exactly one `tick(0)` followed by `decay(k - 1)`
to each of the five Ewma instances, and each resulting rate equals what `k`
successive plain `tick(0)` calls would produce. -/
theorem skip_ahead_equals_k_zero_ticks (m : Meter) (now : ℚ) (k : ℕ)
    (hm : 1 ≤ k) (hk : k ≤ I32_MAX) (hu : m.uncounted = 0)
    (hage : ⌊now - m.start_time⌋₊ = m.last_tick + INTERVAL_SECS * k)
    (h10 : EwmaInv m.state.rate_10s) (h30 : EwmaInv m.state.rate_30s)
    (h1m : EwmaInv m.state.rate_1m) (h5m : EwmaInv m.state.rate_5m)
    (h15 : EwmaInv m.state.rate_15m) :
    (m.tick_if_necessary now).state.rate_10s = (m.state.rate_10s.tick 0).decay (k - 1) ∧
    (m.tick_if_necessary now).state.rate_30s = (m.state.rate_30s.tick 0).decay (k - 1) ∧
    (m.tick_if_necessary now).state.rate_1m = (m.state.rate_1m.tick 0).decay (k - 1) ∧
    (m.tick_if_necessary now).state.rate_5m = (m.state.rate_5m.tick 0).decay (k - 1) ∧
    (m.tick_if_necessary now).state.rate_15m = (m.state.rate_15m.tick 0).decay (k - 1) ∧
    (m.tick_if_necessary now).state.rate_10s.rate =
      ((fun x => Ewma.tick x 0)^[k] m.state.rate_10s).rate ∧
    (m.tick_if_necessary now).state.rate_30s.rate =
      ((fun x => Ewma.tick x 0)^[k] m.state.rate_30s).rate ∧
    (m.tick_if_necessary now).state.rate_1m.rate =
      ((fun x => Ewma.tick x 0)^[k] m.state.rate_1m).rate ∧
    (m.tick_if_necessary now).state.rate_5m.rate =
      ((fun x => Ewma.tick x 0)^[k] m.state.rate_5m).rate ∧
    (m.tick_if_necessary now).state.rate_15m.rate =
      ((fun x => Ewma.tick x 0)^[k] m.state.rate_15m).rate := by
  have hage' : ⌊now - m.start_time⌋₊ - m.last_tick = INTERVAL_SECS * k := by omega
  have hge : ¬ ⌊now - m.start_time⌋₊ - m.last_tick < INTERVAL_SECS := by
    rw [hage']
    simp only [INTERVAL_SECS]
    omega
  have hdiv : (⌊now - m.start_time⌋₊ - m.last_tick) / INTERVAL_SECS = k := by
    rw [hage']
    exact Nat.mul_div_cancel_left k (by norm_num [INTERVAL_SECS])
  have hk1 : k - 1 ≤ I32_MAX := le_trans (Nat.sub_le k 1) hk
  rw [Meter.tick_if_necessary_of_ge m now hge]
  simp only [hu, hdiv]
  refine ⟨trivial, trivial, trivial, trivial, trivial, ?_, ?_, ?_, ?_, ?_⟩
  · rw [Ewma.tick_zero_decay_rate _ k h10 hm hk1, Ewma.iterate_tick_zero k _ h10]
  · rw [Ewma.tick_zero_decay_rate _ k h30 hm hk1, Ewma.iterate_tick_zero k _ h30]
  · rw [Ewma.tick_zero_decay_rate _ k h1m hm hk1, Ewma.iterate_tick_zero k _ h1m]
  · rw [Ewma.tick_zero_decay_rate _ k h5m hm hk1, Ewma.iterate_tick_zero k _ h5m]
  · rw [Ewma.tick_zero_decay_rate _ k h15 hm hk1, Ewma.iterate_tick_zero k _ h15]

/-- Witness for C4 at a fresh meter, no marks, read 10 seconds (k = 2 whole
intervals) after construction. -/
theorem skip_ahead_equals_k_zero_ticks_witness :
    ⌊(10:ℚ) - (Meter.new_with 0).start_time⌋₊ =
      (Meter.new_with 0).last_tick + INTERVAL_SECS * 2 ∧
    ((Meter.new_with 0).tick_if_necessary 10).state.rate_10s.rate =
      ((fun x => Ewma.tick x 0)^[2] (Meter.new_with 0).state.rate_10s).rate := by
  have hage : ⌊(10:ℚ) - (Meter.new_with 0).start_time⌋₊ =
      (Meter.new_with 0).last_tick + INTERVAL_SECS * 2 := by
    norm_num [Meter.new_with, INTERVAL_SECS]
  refine ⟨hage, ?_⟩
  exact (skip_ahead_equals_k_zero_ticks (Meter.new_with 0) 10 2 (by norm_num)
    (by norm_num [I32_MAX]) rfl hage (fun _ => rfl) (fun _ => rfl) (fun _ => rfl)
    (fun _ => rfl) (fun _ => rfl)).2.2.2.2.2.1

/-- C8: `decay` saturates rather than fails — any tick count beyond the
`i32`-representable range sets the rate to exactly 0 instead of raising an
error — and `decay(0)` leaves the instance unchanged. -/
theorem decay_saturates_and_zero_is_noop (e : Ewma) (ticks : ℕ) :
    (I32_MAX < ticks → (e.decay ticks).rate = 0) ∧ e.decay 0 = e := by
  constructor
  · intro h
    unfold Ewma.decay
    rw [if_neg (not_le.2 h)]
  · unfold Ewma.decay
    rw [if_pos (by norm_num [I32_MAX])]
    simp

/-- Witness for C8 at a concrete instance: `i32::MAX + 1 = 2^31` ticks
collapse the rate to 0, and 0 ticks are a no-op. -/
theorem decay_saturates_and_zero_is_noop_witness :
    I32_MAX < 2147483648 ∧ (ewmaSample.decay 2147483648).rate = 0 ∧
    ewmaSample.decay 0 = ewmaSample := by
  have h : I32_MAX < 2147483648 := by norm_num [I32_MAX]
  exact ⟨h, (decay_saturates_and_zero_is_noop ewmaSample 2147483648).1 h,
    (decay_saturates_and_zero_is_noop ewmaSample 0).2⟩

/-- C5 counterexample: `mean_rate` does NOT first run the tick procedure.
At a fresh meter read 7 seconds after construction, running the tick
procedure would advance `last_tick` from 0 to 5, but `mean_rate` leaves the
meter exactly as it found it. -/
theorem mean_rate_skips_tick_counterexample :
    ¬ ((Meter.new_with 0).mean_rate 7).2 = (Meter.new_with 0).tick_if_necessary 7 := by
  intro h
  have h7 : ⌊(7:ℚ) - (Meter.new_with 0).start_time⌋₊ = 7 := by
    norm_num [Meter.new_with]
  have hge : ¬ ⌊(7:ℚ) - (Meter.new_with 0).start_time⌋₊ -
      (Meter.new_with 0).last_tick < INTERVAL_SECS := by
    rw [h7]
    norm_num [Meter.new_with, INTERVAL_SECS]
  have hlt := congrArg Meter.last_tick h
  rw [Meter.tick_if_necessary_of_ge _ _ hge, h7] at hlt
  simp [Meter.mean_rate, Meter.count, Meter.new_with, INTERVAL_SECS] at hlt

/-- C5 amended: the five windowed rate accessors each first run the tick
procedure and then read the corresponding Ewma value under the lock;
`count` returns `uncounted` plus the locked aggregate count without
ticking; and `mean_rate` ALSO skips the tick procedure, leaving the meter
unchanged (it reads the tick-free `count()` and the elapsed time only). -/
theorem windowed_accessors_tick_count_and_mean_do_not (m : Meter) (now : ℚ) :
    m.ten_second_rate now =
      ((m.tick_if_necessary now).state.rate_10s.get, m.tick_if_necessary now) ∧
    m.thirty_second_rate now =
      ((m.tick_if_necessary now).state.rate_30s.get, m.tick_if_necessary now) ∧
    m.one_minute_rate now =
      ((m.tick_if_necessary now).state.rate_1m.get, m.tick_if_necessary now) ∧
    m.five_minute_rate now =
      ((m.tick_if_necessary now).state.rate_5m.get, m.tick_if_necessary now) ∧
    m.fifteen_minute_rate now =
      ((m.tick_if_necessary now).state.rate_15m.get, m.tick_if_necessary now) ∧
    m.count = m.state.count + m.uncounted ∧
    (m.mean_rate now).2 = m := by
  refine ⟨rfl, rfl, rfl, rfl, rfl, rfl, ?_⟩
  simp only [Meter.mean_rate]
  split <;> rfl

/-- A meter one second... a fresh meter with a single event recorded in
`uncounted` and no elapsed time; used to evaluate theorems concretely. -/
noncomputable def meterOneEvent : Meter :=
  { Meter.new_with 0 with uncounted := 1 }

/-- C6 counterexample: with `count() = 1 > 0` and zero elapsed time,
`mean_rate` takes the unguarded division path with a zero divisor (the
IEEE non-finite outcome, `none` in this model) — its result is not
produced by an explicit guard. -/
theorem mean_rate_zero_elapsed_divides_counterexample :
    (meterOneEvent.mean_rate 0).1 = none := by
  simp [meterOneEvent, Meter.mean_rate, Meter.count, Meter.new_with, fdiv]

/-- C6 amended: `mean_rate` guards only `count == 0`; whenever the net count
is nonzero and the elapsed time since `start_time` is zero, it divides the
count by zero, producing a non-finite `f64` value (modelled as `none`)
rather than a guarded result. -/
theorem mean_rate_divides_by_zero_when_elapsed_zero (m : Meter) (now : ℚ)
    (hc : m.count ≠ 0) (ht : now - m.start_time = 0) :
    (m.mean_rate now).1 = none := by
  simp only [Meter.mean_rate]
  rw [if_neg hc]
  simp [fdiv, ht]

/-- Witness for the amended C6 at the concrete one-event meter at time 0. -/
theorem mean_rate_divides_by_zero_when_elapsed_zero_witness :
    meterOneEvent.count ≠ 0 ∧ (0:ℚ) - meterOneEvent.start_time = 0 ∧
    (meterOneEvent.mean_rate 0).1 = none := by
  have h1 : meterOneEvent.count ≠ 0 := by
    simp [meterOneEvent, Meter.count, Meter.new_with]
  have h2 : (0:ℚ) - meterOneEvent.start_time = 0 := by
    simp [meterOneEvent, Meter.new_with]
  exact ⟨h1, h2, mean_rate_divides_by_zero_when_elapsed_zero meterOneEvent 0 h1 h2⟩

/-- C9: a freshly constructed meter reports `count() = 0`, all five windowed
rates 0 and mean rate 0; construction initializes `uncounted = 0`,
`last_tick = 0`, aggregate `count = 0` and the five Ewma instances with
half-lives 0.16, 0.5, 1, 5 and 15 minutes, each with rate 0 and
`initialized = false`. -/
theorem fresh_meter_reports_all_zero (s : ℚ) :
    (Meter.new_with s).count = 0 ∧
    ((Meter.new_with s).ten_second_rate s).1 = 0 ∧
    ((Meter.new_with s).thirty_second_rate s).1 = 0 ∧
    ((Meter.new_with s).one_minute_rate s).1 = 0 ∧
    ((Meter.new_with s).five_minute_rate s).1 = 0 ∧
    ((Meter.new_with s).fifteen_minute_rate s).1 = 0 ∧
    ((Meter.new_with s).mean_rate s).1 = some 0 ∧
    (Meter.new_with s).uncounted = 0 ∧
    (Meter.new_with s).last_tick = 0 ∧
    (Meter.new_with s).state.count = 0 ∧
    (Meter.new_with s).state.rate_10s = Ewma.new 0.16 ∧
    (Meter.new_with s).state.rate_30s = Ewma.new 0.5 ∧
    (Meter.new_with s).state.rate_1m = Ewma.new 1 ∧
    (Meter.new_with s).state.rate_5m = Ewma.new 5 ∧
    (Meter.new_with s).state.rate_15m = Ewma.new 15 ∧
    (∀ minutes : ℝ, (Ewma.new minutes).rate = 0 ∧
      (Ewma.new minutes).initialized = false) := by
  have hlt : ⌊s - (Meter.new_with s).start_time⌋₊ -
      (Meter.new_with s).last_tick < INTERVAL_SECS := by
    simp [Meter.new_with, INTERVAL_SECS]
  have htick := Meter.tick_if_necessary_of_lt _ _ hlt
  refine ⟨rfl, ?_, ?_, ?_, ?_, ?_, ?_, rfl, rfl, rfl, rfl, rfl, rfl, rfl, rfl,
    fun minutes => ⟨rfl, rfl⟩⟩
  · show ((Meter.new_with s).tick_if_necessary s).state.rate_10s.get = 0
    rw [htick]
    rfl
  · show ((Meter.new_with s).tick_if_necessary s).state.rate_30s.get = 0
    rw [htick]
    rfl
  · show ((Meter.new_with s).tick_if_necessary s).state.rate_1m.get = 0
    rw [htick]
    rfl
  · show ((Meter.new_with s).tick_if_necessary s).state.rate_5m.get = 0
    rw [htick]
    rfl
  · show ((Meter.new_with s).tick_if_necessary s).state.rate_15m.get = 0
    rw [htick]
    rfl
  · simp [Meter.mean_rate, Meter.count, Meter.new_with]

/-- C10: `mean_rate` returns 0 exactly when the net count (locked aggregate
plus `uncounted` — what `count()` returns) is 0, including when nonzero
marks cancelled out; when the net count is nonzero (and the elapsed time is
nonzero, so the division is finite) the numerator is the net count,
including events still sitting in `uncounted`. -/
theorem mean_rate_zero_iff_net_count_zero (m : Meter) (now : ℚ) :
    ((m.mean_rate now).1 = some 0 ↔ m.count = 0) ∧
    m.count = m.state.count + m.uncounted ∧
    (m.count ≠ 0 → now - m.start_time ≠ 0 →
      (m.mean_rate now).1 =
        some (((m.state.count + m.uncounted : ℤ) : ℚ) / (now - m.start_time))) := by
  refine ⟨?_, rfl, ?_⟩
  · by_cases hc : m.count = 0
    · simp [Meter.mean_rate, hc]
    · simp only [Meter.mean_rate, if_neg hc, fdiv]
      by_cases ht : now - m.start_time = 0
      · rw [if_pos ht]
        simp [hc]
      · rw [if_neg ht]
        simp only [Option.some_inj]
        rw [div_eq_zero_iff]
        simp [hc, ht]
  · intro hc ht
    simp only [Meter.mean_rate, if_neg hc, fdiv, if_neg ht]
    rfl

/-- Witness for C10: at the one-event meter 5 seconds in, the mean rate is the
net count over the elapsed time; and after `mark(3)` then `mark(-3)` on a
fresh meter the mean rate is 0 (cancelled marks). -/
theorem mean_rate_zero_iff_net_count_zero_witness :
    meterOneEvent.count ≠ 0 ∧ (5:ℚ) - meterOneEvent.start_time ≠ 0 ∧
    (meterOneEvent.mean_rate 5).1 =
      some (((meterOneEvent.state.count + meterOneEvent.uncounted : ℤ) : ℚ) /
        ((5:ℚ) - meterOneEvent.start_time)) ∧
    ((runOps (Meter.new_with 0) [MeterOp.mark 3 0, MeterOp.mark (-3) 0]).mean_rate 5).1 =
      some 0 := by
  have h1 : meterOneEvent.count ≠ 0 := by
    simp [meterOneEvent, Meter.count, Meter.new_with]
  have h2 : (5:ℚ) - meterOneEvent.start_time ≠ 0 := by
    simp [meterOneEvent, Meter.new_with]
  have hcancel : (runOps (Meter.new_with 0) [MeterOp.mark 3 0, MeterOp.mark (-3) 0]).count = 0 := by
    rw [Meter.count_runOps]
    simp [marksSum, Meter.count, Meter.new_with]
  exact ⟨h1, h2, (mean_rate_zero_iff_net_count_zero meterOneEvent 5).2.2 h1 h2,
    (mean_rate_zero_iff_net_count_zero _ 5).1.mpr hcancel⟩

end Witchcraft
